import Mathlib

/-!
Shallow embedding of the crafting rules engine of this repository:
the item model and its mutators (itemUtils), the condition evaluator and
action executor (actionSystem), and the guide step executor and guide
manager (guideSystem.ts).

Modelling conventions, used throughout:
* JavaScript dynamic values are the inductive `JSVal` (string, number as ℚ,
  boolean, null, undefined, array, object).  Numbers are exact rationals;
  the engine's arithmetic is small-integer, so IEEE-754 rounding and NaN
  never arise on the inputs the development evaluates (`Number(...)` of a
  non-numeric string, the one NaN source, is modelled as `none`).
* `===` on arrays/objects is reference equality in JavaScript; two
  separately constructed values are never `===`, so `strictEq` returns
  `false` on composite values.
* `uuidv4()` and `Math.random()` are injected entropy: every function that
  draws fresh ids or random numbers takes streams `uuid : Nat → String` /
  `rand : Nat → ℚ` plus a consumption counter that is threaded explicitly.
* Thrown JavaScript errors are `Except` errors carrying the same
  distinctions the source makes; the message text is reproduced by
  `EvalError.message` / `ActionError.message`.
-/

attribute [local semireducible] Rat.add Rat.mul Rat.inv Rat.sub

/-- A JavaScript runtime value. -/
inductive JSVal where
  | undefined
  | null
  | bool (b : Bool)
  | num (q : ℚ)
  | str (s : String)
  | arr (elems : List JSVal)
  | obj (fields : List (String × JSVal))

/-- Decimal digits to a natural number; `none` if a non-digit occurs. -/
def digitsToNatAux : Nat → List Char → Option Nat
  | acc, [] => some acc
  | acc, c :: cs => if c.isDigit then digitsToNatAux (acc * 10 + (c.toNat - 48)) cs else none

/-- Unsigned decimal literal (digits, optionally with one decimal point), as in
JavaScript `Number(...)` on simple decimal strings.  Exponents, hex and
`Infinity` forms are not modelled (no engine code path produces them). -/
def parseUnsignedDec (cs : List Char) : Option ℚ :=
  let intCs := cs.takeWhile (fun c => c.isDigit)
  let rest := cs.dropWhile (fun c => c.isDigit)
  match rest with
  | [] =>
      if intCs.isEmpty then none
      else (digitsToNatAux 0 intCs).map (fun n => (n : ℚ))
  | c :: fracCs =>
      if c = '.' && fracCs.all (fun d => d.isDigit) && (!intCs.isEmpty || !fracCs.isEmpty) then
        match digitsToNatAux 0 intCs, digitsToNatAux 0 fracCs with
        | some i, some f => some ((i : ℚ) + (f : ℚ) / ((10 : ℚ) ^ fracCs.length))
        | _, _ => none
      else none

/-- ASCII whitespace, the forms the engine's inputs can contain. -/
def isJsSpace (c : Char) : Bool :=
  c = ' ' || c = '\t' || c = '\n' || c = '\r'

/-- `String.prototype.trim` over the character list. -/
def trimChars (cs : List Char) : List Char :=
  ((cs.dropWhile isJsSpace).reverse.dropWhile isJsSpace).reverse

/-- JavaScript `Number(string)`: trimmed; empty string is 0; otherwise an
optionally signed decimal literal; anything else is NaN (`none`). -/
def strToNumber (s : String) : Option ℚ :=
  match trimChars s.toList with
  | [] => some 0
  | c :: restCs =>
      if c = '-' then (parseUnsignedDec restCs).map (fun q => -q)
      else if c = '+' then parseUnsignedDec restCs
      else parseUnsignedDec (c :: restCs)

/-- Rendering of a JavaScript number.  Integers print without a fractional
part; non-integer rationals (which no claim ever stringifies) use the `ℚ`
printer as an abstraction of the decimal expansion. -/
def numToString (q : ℚ) : String :=
  if q.den = 1 then toString q.num else toString q

mutual
/-- JavaScript `String(v)` / `.toString()` coercion. -/
def jsToString : JSVal → String
  | .undefined => "undefined"
  | .null => "null"
  | .bool b => if b then "true" else "false"
  | .num q => numToString q
  | .str s => s
  | .arr xs => jsListToString xs
  | .obj _ => "[object Object]"
/-- `Array.prototype.toString` = `join(",")`; null/undefined elements render
as the empty string. -/
def jsListToString : List JSVal → String
  | [] => ""
  | [x] =>
      match x with
      | .undefined => ""
      | .null => ""
      | v => jsToString v
  | x :: y :: rest =>
      (match x with
       | .undefined => ""
       | .null => ""
       | v => jsToString v) ++ "," ++ jsListToString (y :: rest)
end

/-- JavaScript truthiness. -/
def jsTruthy : JSVal → Bool
  | .undefined => false
  | .null => false
  | .bool b => b
  | .num q => !(q = 0)
  | .str s => !(s = "")
  | .arr _ => true
  | .obj _ => true

/-- JavaScript `Number(v)`; `none` is NaN.  Composite values coerce through
their string form (ToPrimitive → toString → ToNumber). -/
def toNumber : JSVal → Option ℚ
  | .num q => some q
  | .bool b => some (if b then 1 else 0)
  | .null => some 0
  | .undefined => none
  | .str s => strToNumber s
  | .arr xs => strToNumber (jsListToString xs)
  | .obj _ => none

/-- JavaScript `===`.  Arrays and objects compare by reference, so two
separately materialised composite values are never `===`. -/
def strictEq : JSVal → JSVal → Bool
  | .undefined, .undefined => true
  | .null, .null => true
  | .bool a, .bool b => a = b
  | .num a, .num b => a = b
  | .str a, .str b => a = b
  | _, _ => false

/-- Property access `v?.[key]` (optional member read).  On objects this is a
key lookup, on arrays a numeric index, and on primitives it yields
`undefined` (built-in properties such as `length` are not modelled; no
engine code path reads them). -/
def JSVal.objGet : JSVal → String → JSVal
  | .obj fields, key =>
      match fields.find? (fun kv => kv.1 = key) with
      | some kv => kv.2
      | none => .undefined
  | .arr xs, key =>
      match (if key.toList.isEmpty then none else digitsToNatAux 0 key.toList) with
      | some i => (xs.get? i).getD .undefined
      | none => .undefined
  | _, _ => .undefined

/-- Numeric `<` after `Number(...)` coercion of both sides; comparisons with
NaN are false. -/
def jsNumberLt (a b : JSVal) : Bool :=
  match toNumber a, toNumber b with
  | some x, some y => decide (x < y)
  | _, _ => false

/-- Numeric `>` after `Number(...)` coercion of both sides. -/
def jsNumberGt (a b : JSVal) : Bool :=
  match toNumber a, toNumber b with
  | some x, some y => decide (y < x)
  | _, _ => false

/-- Numeric `>=` after `Number(...)` coercion of both sides. -/
def jsNumberGe (a b : JSVal) : Bool :=
  match toNumber a, toNumber b with
  | some x, some y => decide (y ≤ x)
  | _, _ => false

/-- `String.prototype.split` with a single-character separator, over the
character list: `"" ↦ [""]`, separators at the ends yield empty fields. -/
def splitListOn (sep : Char) : List Char → List (List Char)
  | [] => [[]]
  | c :: cs =>
      match splitListOn sep cs with
      | [] => if c = sep then [[], []] else [[c]]
      | h :: t => if c = sep then [] :: h :: t else (c :: h) :: t

/-- `target.split(".")`. -/
def splitOnDot (s : String) : List String :=
  (splitListOn '.' s.toList).map (fun cs => String.mk cs)

/-- Whether `pat` is a leading segment of `text`. -/
def listStartsWith : List Char → List Char → Bool
  | [], _ => true
  | _ :: _, [] => false
  | p :: ps, t :: ts => p = t && listStartsWith ps ts

/-- Whether `pat` occurs contiguously inside `text`. -/
def listHasSegment (pat : List Char) : List Char → Bool
  | [] => pat.isEmpty
  | t :: ts => listStartsWith pat (t :: ts) || listHasSegment pat ts

/-- JavaScript `s.includes(sub)`. -/
def strContainsStr (s sub : String) : Bool :=
  listHasSegment sub.toList s.toList

/-- `x || d` for an optional numeric field (falsy means absent or 0). -/
def jsOrNumOpt (a : Option ℚ) (d : ℚ) : ℚ :=
  match a with
  | some x => if x = 0 then d else x
  | none => d

/-- An optional string as a JavaScript value (`undefined` when absent),
modelling an unchecked `x!` read of an optional field. -/
def jsOfOptStr : Option String → JSVal
  | some s => .str s
  | none => .undefined

/-- Truthiness of an optional string field (`undefined` and `""` are falsy). -/
def optStrTruthy : Option String → Bool
  | some s => !(s = "")
  | none => false

/-- A named item property (types/core `ItemProperty`). -/
structure ItemProperty where
  id : String
  name : String
  value : JSVal
  type : String

/-- An item modifier (types/core `ItemModifier`).  `name` and `tier` are kept
as dynamic values because the declarative change path can materialise them
from untyped change data (`change.target!`, `change.value?.tier || 1`). -/
structure ItemModifier where
  id : String
  name : JSVal
  tier : JSVal
  values : List (String × JSVal)
  type : String
  tags : List String

/-- An item socket (types/core `ItemSocket`). -/
structure ItemSocket where
  id : String
  color : String
  links : List String

/-- The crafted item (types/core `Item`).  `properties` is the insertion-
ordered string-keyed record of the source. -/
structure Item where
  id : String
  name : String
  baseType : String
  itemLevel : ℚ
  quality : ℚ
  isCorrupted : Bool
  isIdentified : Bool
  rarity : String
  properties : List (String × ItemProperty)
  modifiers : List ItemModifier
  sockets : List ItemSocket
  customData : JSVal
  tags : List String

/-- itemUtils `createProperty`; the fresh uuid is passed in. -/
def createProperty (propId : String) (name : String) (value : JSVal) (ptype : String) : ItemProperty :=
  { id := propId, name := name, value := value, type := ptype }

/-- itemUtils `createModifier`; the fresh uuid is passed in; `values` and
`tags` take their source defaults. -/
def createModifier (modId : String) (name : JSVal) (tier : JSVal) (mtype : String) : ItemModifier :=
  { id := modId, name := name, tier := tier, values := [], type := mtype, tags := [] }

/-- itemUtils `createSocket`; the fresh uuid is passed in; `links` takes its
source default. -/
def createSocket (socketId : String) (color : String) : ItemSocket :=
  { id := socketId, color := color, links := [] }

/-- `record[key] = v` on a string-keyed record: replace in place if the key
exists, else append (JavaScript object insertion order). -/
def recordSet (ps : List (String × ItemProperty)) (name : String) (p : ItemProperty) : List (String × ItemProperty) :=
  if ps.any (fun kv => kv.1 = name) then
    ps.map (fun kv => if kv.1 = name then (name, p) else kv)
  else ps ++ [(name, p)]

/-- itemUtils `addProperty`. -/
def addProperty (propId : String) (item : Item) (name : String) (value : JSVal) (ptype : String) : Item :=
  { item with properties := recordSet item.properties name (createProperty propId name value ptype) }

/-- itemUtils `updateProperty`: sets `properties[name].value` when the key is
present, otherwise leaves the item untouched. -/
def updateProperty (item : Item) (name : String) (value : JSVal) : Item :=
  { item with properties :=
      item.properties.map (fun kv => if kv.1 = name then (kv.1, { kv.2 with value := value }) else kv) }

/-- itemUtils `removeProperty`. -/
def removeProperty (item : Item) (name : String) : Item :=
  { item with properties := item.properties.filter (fun kv => !(kv.1 = name)) }

/-- itemUtils `addModifier`: appends. -/
def addModifier (item : Item) (modifier : ItemModifier) : Item :=
  { item with modifiers := item.modifiers ++ [modifier] }

/-- itemUtils `removeModifier`: filters by id. -/
def removeModifier (item : Item) (modifierId : String) : Item :=
  { item with modifiers := item.modifiers.filter (fun m => !(m.id = modifierId)) }

/-- itemUtils `addSocket`: appends. -/
def addSocket (item : Item) (socket : ItemSocket) : Item :=
  { item with sockets := item.sockets ++ [socket] }

/-- itemUtils `removeSocket`: filters by id. -/
def removeSocket (item : Item) (socketId : String) : Item :=
  { item with sockets := item.sockets.filter (fun s => !(s.id = socketId)) }

/-- itemUtils `linkSockets`: every socket in the set gets exactly the other
ids of the set as its links. -/
def linkSockets (item : Item) (socketIds : List String) : Item :=
  { item with sockets :=
      item.sockets.map (fun s =>
        if socketIds.contains s.id then { s with links := socketIds.filter (fun i => !(i = s.id)) }
        else s) }

/-- itemUtils `corruptItem`. -/
def corruptItem (item : Item) : Item :=
  { item with isCorrupted := true }

/-- itemUtils `hasProperty`: key membership; the evaluator passes the
condition's dynamic `value`, which coerces to a property key string. -/
def hasProperty (item : Item) (propertyName : JSVal) : Bool :=
  item.properties.any (fun kv => kv.1 = jsToString propertyName)

/-- itemUtils `getPropertyValue`. -/
def getPropertyValue (item : Item) (propertyName : String) : JSVal :=
  match item.properties.find? (fun kv => kv.1 = propertyName) with
  | some kv => kv.2.value
  | none => .undefined

/-- itemUtils `hasModifier`: `mod.name === value` over the modifier list. -/
def hasModifier (item : Item) (modifierName : JSVal) : Bool :=
  item.modifiers.any (fun m => strictEq m.name modifierName)

/-- itemUtils `getModifier`: first modifier with `mod.name === modifierName`
(declared over strings in the source, but reached with dynamic values at
runtime). -/
def getModifier (item : Item) (modifierName : JSVal) : Option ItemModifier :=
  item.modifiers.find? (fun m => strictEq m.name modifierName)

/-- itemUtils `getPrefixCount`. -/
def getPrefixCount (item : Item) : Nat :=
  (item.modifiers.filter (fun m => m.type = "prefix")).length

/-- itemUtils `getSuffixCount`. -/
def getSuffixCount (item : Item) : Nat :=
  (item.modifiers.filter (fun m => m.type = "suffix")).length

/-- Modifier caps per rarity (itemUtils `getMaxModifiers`, fields
`prefix`/`suffix` renamed `prefixCap`/`suffixCap`). -/
structure MaxMods where
  prefixCap : Nat
  suffixCap : Nat

/-- itemUtils `getMaxModifiers`. -/
def getMaxModifiers (item : Item) : MaxMods :=
  if item.rarity = "normal" then { prefixCap := 0, suffixCap := 0 }
  else if item.rarity = "magic" then { prefixCap := 1, suffixCap := 1 }
  else if item.rarity = "rare" then { prefixCap := 3, suffixCap := 3 }
  else if item.rarity = "unique" then { prefixCap := 6, suffixCap := 6 }
  else { prefixCap := 0, suffixCap := 0 }

/-- A batch validation outcome `{isValid, errors}`. -/
structure ValidationResult where
  isValid : Bool
  errors : List String

/-- JavaScript `indexOf` with `===` over dynamic values (`-1` as `none`). -/
def jsIndexOf (xs : List JSVal) (v : JSVal) : Option Nat :=
  xs.findIdx? (fun x => strictEq x v)

/-- itemUtils `validateItem`: modifier-count caps, duplicate modifier names,
and socket-link existence/symmetry, collected as a list. -/
def validateItem (item : Item) : ValidationResult :=
  let maxMods := getMaxModifiers item
  let prefixCount := getPrefixCount item
  let suffixCount := getSuffixCount item
  let e1 : List String :=
    if maxMods.prefixCap < prefixCount then
      ["Too many prefix modifiers: " ++ toString prefixCount ++ "/" ++ toString maxMods.prefixCap]
    else []
  let e2 : List String :=
    if maxMods.suffixCap < suffixCount then
      ["Too many suffix modifiers: " ++ toString suffixCount ++ "/" ++ toString maxMods.suffixCap]
    else []
  let modifierNames := item.modifiers.map (fun m => m.name)
  let duplicates := (modifierNames.enum.filter
      (fun p => !(jsIndexOf modifierNames p.2 = some p.1))).map (fun p => p.2)
  let e3 : List String :=
    if duplicates.isEmpty then []
    else ["Duplicate modifiers: " ++ String.intercalate ", " (duplicates.map jsToString)]
  let e4 : List String :=
    (item.sockets.map (fun socket =>
      (socket.links.map (fun linkedId =>
        match item.sockets.find? (fun s => s.id = linkedId) with
        | none => ["Socket " ++ socket.id ++ " linked to non-existent socket " ++ linkedId]
        | some linkedSocket =>
            if linkedSocket.links.contains socket.id then []
            else ["Socket link is not bidirectional: " ++ socket.id ++ " -> " ++ linkedId])).flatten)).flatten
  let errors := e1 ++ e2 ++ e3 ++ e4
  { isValid := errors.isEmpty, errors := errors }

/-- itemUtils `cloneItem`: a deep copy with a fresh id (the fresh uuid is
passed in). -/
def cloneItem (freshId : String) (item : Item) : Item :=
  { item with id := freshId }

/-- itemUtils `exportItem`: `JSON.stringify`.  The serialized text is
identified with the value it denotes; stringify-then-parse is the identity
on the JSON-representable items the engine handles. -/
def exportItem (item : Item) : Item :=
  item

/-- itemUtils `importItem`: parse (see `exportItem`), validate, and return
the parsed item unchanged; invalid items raise the aggregated error. -/
def importItem (itemJson : Item) : Except String Item :=
  let validation := validateItem itemJson
  if validation.isValid then .ok itemJson
  else .error ("Invalid item: " ++ String.intercalate ", " validation.errors)

/-- A condition tree node (types/core `Condition`).  The optional
`conditions` array is modelled as a plain list: for every consumer
(`and`/`or`/`not`) an absent array and an empty array behave identically,
so `[]` stands for both. -/
inductive Condition where
  | mk (id : String) (type : String) (operator : String) (target : Option String)
       (value : JSVal) (conditions : List Condition) (customEvaluator : Option String)

/-- The condition's id. -/
def Condition.idOf : Condition → String
  | .mk i _ _ _ _ _ _ => i

/-- The condition's type tag. -/
def Condition.typeOf : Condition → String
  | .mk _ t _ _ _ _ _ => t

/-- The condition's operator string. -/
def Condition.operator : Condition → String
  | .mk _ _ op _ _ _ _ => op

/-- The condition's optional target path. -/
def Condition.target : Condition → Option String
  | .mk _ _ _ t _ _ _ => t

/-- The condition's comparison value. -/
def Condition.value : Condition → JSVal
  | .mk _ _ _ _ v _ _ => v

/-- The condition's child conditions. -/
def Condition.conditions : Condition → List Condition
  | .mk _ _ _ _ _ cs _ => cs

/-- The condition's optional custom evaluator name. -/
def Condition.customEvaluator : Condition → Option String
  | .mk _ _ _ _ _ _ ce => ce

/-- Errors thrown by `ConditionEvaluator.evaluate`: the explicit unknown-
operator `Error`, and the TypeError from dereferencing an absent `target`
with `condition.target!`. -/
inductive EvalError where
  | unknownOperator (op : String)
  | typeError (msg : String)

/-- The thrown error's `.message`. -/
def EvalError.message : EvalError → String
  | .unknownOperator op => "Unknown condition operator: " ++ op
  | .typeError m => m

/-- The TypeError message for `condition.target!.split` on an absent target. -/
def targetSplitTypeError : String :=
  "Cannot read properties of undefined (reading \x27split\x27)"

/-- `getNestedValue`: `path.reduce((current, key) => current?.[key], obj)`. -/
def getNestedValue : JSVal → List String → JSVal
  | v, [] => v
  | v, key :: rest => getNestedValue (v.objGet key) rest

/-- The item as the plain JavaScript object the evaluator's path resolution
walks over. -/
def propertyToJS (p : ItemProperty) : JSVal :=
  .obj [("id", .str p.id), ("name", .str p.name), ("value", p.value), ("type", .str p.type)]

/-- The modifier as a JavaScript object. -/
def modifierToJS (m : ItemModifier) : JSVal :=
  .obj [("id", .str m.id), ("name", m.name), ("tier", m.tier), ("values", .obj m.values),
        ("type", .str m.type), ("tags", .arr (m.tags.map (fun t => .str t)))]

/-- The socket as a JavaScript object. -/
def socketToJS (s : ItemSocket) : JSVal :=
  .obj [("id", .str s.id), ("color", .str s.color),
        ("links", .arr (s.links.map (fun l => .str l)))]

/-- The item as a JavaScript object (field-for-field). -/
def itemToJS (item : Item) : JSVal :=
  .obj [("id", .str item.id), ("name", .str item.name), ("baseType", .str item.baseType),
        ("itemLevel", .num item.itemLevel), ("quality", .num item.quality),
        ("isCorrupted", .bool item.isCorrupted), ("isIdentified", .bool item.isIdentified),
        ("rarity", .str item.rarity),
        ("properties", .obj (item.properties.map (fun kv => (kv.1, propertyToJS kv.2)))),
        ("modifiers", .arr (item.modifiers.map modifierToJS)),
        ("sockets", .arr (item.sockets.map socketToJS)),
        ("customData", item.customData),
        ("tags", .arr (item.tags.map (fun t => .str t)))]

/-- A possibly-absent modifier as the value `getTargetValue` hands back. -/
def jsOfModifierOpt : Option ItemModifier → JSVal
  | some m => modifierToJS m
  | none => .undefined

/-- `ConditionEvaluator.getTargetValue`: split the dotted path; namespace on
the first segment (`item` / `property` / `modifier`), any other first
segment treats the whole path as a raw item field path. -/
def getTargetValue (target : String) (item : Item) : JSVal :=
  let parts := splitOnDot target
  match parts with
  | "item" :: rest => getNestedValue (itemToJS item) rest
  | "property" :: rest =>
      match rest with
      | [] => .undefined
      | p :: _ => getPropertyValue item p
  | "modifier" :: rest =>
      let modifier := getModifier item (jsOfOptStr rest.head?)
      match rest with
      | _ :: q :: qs => getNestedValue (jsOfModifierOpt modifier) (q :: qs)
      | _ => jsOfModifierOpt modifier
  | _ => getNestedValue (itemToJS item) parts

/-- `evaluateEquals`: resolve `condition.target!` and compare with `===`.
An absent target faults like the source's unchecked `target!.split`. -/
def evaluateEquals (target : Option String) (value : JSVal) (item : Item) : Except EvalError Bool :=
  match target with
  | none => .error (.typeError targetSplitTypeError)
  | some t => .ok (strictEq (getTargetValue t item) value)

/-- `evaluateGreaterThan`: numeric-cast comparison. -/
def evaluateGreaterThan (target : Option String) (value : JSVal) (item : Item) : Except EvalError Bool :=
  match target with
  | none => .error (.typeError targetSplitTypeError)
  | some t => .ok (jsNumberGt (getTargetValue t item) value)

/-- `evaluateLessThan`: numeric-cast comparison. -/
def evaluateLessThan (target : Option String) (value : JSVal) (item : Item) : Except EvalError Bool :=
  match target with
  | none => .error (.typeError targetSplitTypeError)
  | some t => .ok (jsNumberLt (getTargetValue t item) value)

/-- `evaluateContains`: membership for arrays, substring on string forms
otherwise. -/
def evaluateContains (target : Option String) (value : JSVal) (item : Item) : Except EvalError Bool :=
  match target with
  | none => .error (.typeError targetSplitTypeError)
  | some t =>
      let v := getTargetValue t item
      match v with
      | .arr xs => .ok (xs.any (fun x => strictEq x value))
      | w => .ok (strContainsStr (jsToString w) (jsToString value))

/-- The three evaluators the `ConditionEvaluator` constructor registers
(`corruption_check`, `socket_check`, `modifier_tier_check`); `none` means
the name is unregistered.  All engine call sites use a default-constructed
evaluator, so the registered table is exactly these built-ins. -/
def runCustomEvaluator (name : String) (target : Option String) (value : JSVal) (item : Item) :
    Option Bool :=
  if name = "corruption_check" then some (strictEq (.bool item.isCorrupted) value)
  else if name = "socket_check" then some (jsNumberGe (.num (item.sockets.length : ℚ)) value)
  else if name = "modifier_tier_check" then
    some (match getModifier item (jsOfOptStr target) with
          | some m => jsNumberGe m.tier value
          | none => false)
  else none

mutual
/-- `ConditionEvaluator.evaluate`: dispatch on the operator string; the
default arm consults the registered custom evaluators and otherwise throws
the unknown-operator error. -/
def evaluate (c : Condition) (item : Item) : Except EvalError Bool :=
  match c with
  | .mk _ _ op target value conditions customEvaluator =>
    if op = "equals" then evaluateEquals target value item
    else if op = "notEquals" then do
      let b ← evaluateEquals target value item
      .ok (!b)
    else if op = "greaterThan" then evaluateGreaterThan target value item
    else if op = "lessThan" then evaluateLessThan target value item
    else if op = "contains" then evaluateContains target value item
    else if op = "hasModifier" then .ok (hasModifier item value)
    else if op = "hasProperty" then .ok (hasProperty item value)
    else if op = "and" then evalEvery conditions item
    else if op = "or" then evalSome conditions item
    else if op = "not" then
      match conditions with
      | [] => .ok true
      | c0 :: _ => do
          let b ← evaluate c0 item
          .ok (!b)
    else
      match customEvaluator with
      | some ce =>
          if ce = "" then .error (.unknownOperator op)
          else
            match runCustomEvaluator ce target value item with
            | some b => .ok b
            | none => .error (.unknownOperator op)
      | none => .error (.unknownOperator op)
/-- `conditions.every(c => evaluate(c, item))`: short-circuits on the first
false result; a thrown error propagates. -/
def evalEvery (cs : List Condition) (item : Item) : Except EvalError Bool :=
  match cs with
  | [] => .ok true
  | c :: rest => do
      let b ← evaluate c item
      if b then evalEvery rest item else .ok false
/-- `conditions.some(c => evaluate(c, item))`: short-circuits on the first
true result. -/
def evalSome (cs : List Condition) (item : Item) : Except EvalError Bool :=
  match cs with
  | [] => .ok false
  | c :: rest => do
      let b ← evaluate c item
      if b then .ok true else evalSome rest item
end

/-- A declared item change (types/core `ItemChange`): tagged by the `type`
string and carrying the optional fields the variants use. -/
structure ItemChange where
  type : String
  target : Option String
  value : JSVal
  modifierId : Option String
  socketId : Option String
  customHandler : Option String

/-- One probabilistic action outcome (types/core `ActionOutcome`).  As with
`Condition.conditions`, the optional gating `conditions` array is a plain
list: absent and empty behave identically in the outcome filter. -/
structure ActionOutcome where
  id : String
  probability : ℚ
  description : String
  changes : List ItemChange
  conditions : List Condition

/-- A crafting action (types/core `CraftAction`); `requirements` is
informational cost metadata the executor never reads. -/
structure CraftAction where
  id : String
  name : String
  description : String
  category : String
  preconditions : List Condition
  requirements : JSVal
  outcomes : List ActionOutcome
  customHandler : Option String
  tags : List String
  isEnabled : Bool

/-- Errors thrown out of `ActionExecutor.executeAction` /
`ActionRegistryManager.executeAction`. -/
inductive ActionError where
  | evalErr (e : EvalError)
  | preconditionsNotMet (actionName : String)
  | noValidOutcomes (actionName : String)
  | actionNotFound (actionId : String)

/-- The thrown error's `.message`. -/
def ActionError.message : ActionError → String
  | .evalErr e => e.message
  | .preconditionsNotMet n => "Cannot execute action " ++ n ++ ": preconditions not met"
  | .noValidOutcomes n => "No valid outcomes for action " ++ n
  | .actionNotFound i => "Action not found: " ++ i

/-- `change.value?.tier || 1`: the tier carried by an addModifier change,
defaulting to 1 when falsy or absent. -/
def tierOfValue (value : JSVal) : JSVal :=
  let t := value.objGet "tier"
  if jsTruthy t then t else .num 1

/-- `change.value?.color || "white"`: the socket color of an addSocket
change.  A truthy non-string color (untypeable in the TS surface) is kept
via its string form, as it is only ever compared/rendered as a string. -/
def colorOfValue (value : JSVal) : String :=
  let c := value.objGet "color"
  match c with
  | .str s => if s = "" then "white" else s
  | other => if jsTruthy other then jsToString other else "white"

/-- A dynamic value as a string, when it is one. -/
def jsAsStr : JSVal → Option String
  | .str s => some s
  | _ => none

/-- `ActionExecutor.applyChanges`, one change: dispatch on the change type,
threading the uuid consumption counter (each `createModifier`/`createSocket`
draws one fresh id).  The `custom` arm and unknown types are logged no-ops
in the source.  A `linkSockets` change whose `socketIds` is truthy but not
an array of strings would fault in the source; the typed configuration
surface cannot produce one and it is left as the identity here. -/
def applyChange (uuid : Nat → String) (st : Item × Nat) (change : ItemChange) : Item × Nat :=
  let item := st.1
  let k := st.2
  if change.type = "addModifier" then
    if optStrTruthy change.modifierId then
      (addModifier item (createModifier (uuid k) (jsOfOptStr change.target)
        (tierOfValue change.value) "prefix"), k + 1)
    else (item, k)
  else if change.type = "removeModifier" then
    match change.modifierId with
    | some mid => if mid = "" then (item, k) else (removeModifier item mid, k)
    | none => (item, k)
  else if change.type = "modifyProperty" then
    match change.target with
    | some t => if t = "" then (item, k) else (updateProperty item t change.value, k)
    | none => (item, k)
  else if change.type = "addSocket" then
    (addSocket item (createSocket (uuid k) (colorOfValue change.value)), k + 1)
  else if change.type = "removeSocket" then
    match change.socketId with
    | some sid => if sid = "" then (item, k) else (removeSocket item sid, k)
    | none => (item, k)
  else if change.type = "linkSockets" then
    let ids := change.value.objGet "socketIds"
    if jsTruthy ids then
      match ids with
      | .arr xs => (linkSockets item (xs.filterMap jsAsStr), k)
      | _ => (item, k)
    else (item, k)
  else if change.type = "corrupt" then
    (corruptItem item, k)
  else (item, k)

/-- `ActionExecutor.applyChanges`: fold the changes in declared order. -/
def applyChanges (uuid : Nat → String) (st : Item × Nat) (changes : List ItemChange) : Item × Nat :=
  changes.foldl (applyChange uuid) st

/-- The `random <= accumulator` walk of `selectOutcomeByProbability`;
`none` when the walk falls through the whole list. -/
def selectWalk (random : ℚ) : List ActionOutcome → ℚ → Option ActionOutcome
  | [], _ => none
  | o :: os, accumulator =>
      let acc2 := accumulator + o.probability
      if random ≤ acc2 then some o else selectWalk random os acc2

/-- `ActionExecutor.selectOutcomeByProbability` on a non-empty outcome list
(the caller has already excluded the empty case); `r` is the `Math.random()`
draw.  Sum the weights; non-positive total picks the first outcome; else
walk accumulating weight until the scaled draw is reached, falling back to
the last outcome. -/
def selectOutcomeByProbability (first : ActionOutcome) (rest : List ActionOutcome) (r : ℚ) :
    ActionOutcome :=
  let outcomes := first :: rest
  let totalProbability := (outcomes.map (fun o => o.probability)).sum
  if totalProbability ≤ 0 then first
  else
    match selectWalk (r * totalProbability) outcomes 0 with
    | some o => o
    | none => outcomes.getLast (List.cons_ne_nil first rest)

/-- The outcome filter of `executeAction`:
`!outcome.conditions || outcome.conditions.every(...)` against the current,
unmodified item; a thrown evaluation error propagates. -/
def filterValidOutcomes : List ActionOutcome → Item → Except EvalError (List ActionOutcome)
  | [], _ => .ok []
  | o :: os, item => do
      let keep ← evalEvery o.conditions item
      let rest ← filterValidOutcomes os item
      .ok (if keep then o :: rest else rest)

/-- `ActionExecutor.canExecuteAction`: every precondition evaluates true. -/
def canExecuteAction (action : CraftAction) (item : Item) : Except EvalError Bool :=
  evalEvery action.preconditions item

/-- The custom handler the executor will use, if any:
`action.customHandler && this.customHandlers[action.customHandler]`.
The registered handler table is the abstract `handlers` parameter. -/
def resolveHandler (handlers : String → Option (Item → CraftAction → Item))
    (action : CraftAction) : Option (Item → CraftAction → Item) :=
  match action.customHandler with
  | some h => if h = "" then none else handlers h
  | none => none

/-- `ActionExecutor.executeAction`: precondition gate, then either the
registered custom handler (whose reported outcome is the action's first
declared outcome, possibly absent) or the declarative path: filter outcomes
on the unmodified item, fail when none remain, select one by weighted draw,
and apply its changes in order.  `rand`/`uuid` are the injected entropy
streams and `k` the consumption counter; the single potential `Math.random`
draw is `rand k`, consumed exactly when the weight total is positive. -/
def executeAction (handlers : String → Option (Item → CraftAction → Item))
    (rand : Nat → ℚ) (uuid : Nat → String) (k : Nat)
    (action : CraftAction) (item : Item) :
    Except ActionError ((Item × Option ActionOutcome) × Nat) := do
  let can ← (canExecuteAction action item).mapError ActionError.evalErr
  if !can then throw (.preconditionsNotMet action.name)
  else
    match resolveHandler handlers action with
    | some h => .ok ((h item action, action.outcomes.head?), k)
    | none => do
        let validOutcomes ← (filterValidOutcomes action.outcomes item).mapError ActionError.evalErr
        match validOutcomes with
        | [] => throw (.noValidOutcomes action.name)
        | v :: vs =>
            let totalProbability := ((v :: vs).map (fun o => o.probability)).sum
            let selectedOutcome := selectOutcomeByProbability v vs (rand k)
            let k2 := if totalProbability ≤ 0 then k else k + 1
            let applied := applyChanges uuid (item, k2) selectedOutcome.changes
            .ok ((applied.1, some selectedOutcome), applied.2)

/-- `ActionRegistryManager.getAction`: lookup in the registered-action
record (the registry contents are the abstract `actions` parameter). -/
def getAction (actions : List (String × CraftAction)) (actionId : String) : Option CraftAction :=
  (actions.find? (fun kv => kv.1 = actionId)).map (fun kv => kv.2)

/-- `ActionRegistryManager.canExecuteAction`: `false` (not an error) when
the id is unregistered, else the executor's precondition check. -/
def registryCanExecuteAction (actions : List (String × CraftAction)) (actionId : String)
    (item : Item) : Except EvalError Bool :=
  match getAction actions actionId with
  | none => .ok false
  | some action => canExecuteAction action item

/-- `ActionRegistryManager.executeAction`: throws the action-not-found
error when the id is unregistered, else delegates to the executor. -/
def registryExecuteAction (actions : List (String × CraftAction))
    (handlers : String → Option (Item → CraftAction → Item))
    (rand : Nat → ℚ) (uuid : Nat → String) (k : Nat) (actionId : String) (item : Item) :
    Except ActionError ((Item × Option ActionOutcome) × Nat) :=
  match getAction actions actionId with
  | none => .error (.actionNotFound actionId)
  | some action => executeAction handlers rand uuid k action item

/-- A guide step (types/core `GuideStep`): linear / conditional / branch /
loop.  A branch arm is the triple (condition, steps, label).  The `type`
discriminant string is recovered by `GuideStep.typeName`; the source's
unknown-step-type default arm has no representative in this closed union. -/
inductive GuideStep where
  | linear (id : String) (actionId : String) (description : String) (notes : Option String)
  | conditional (id : String) (condition : Condition) (trueStep : GuideStep)
      (falseStep : GuideStep) (description : String)
  | branch (id : String) (branches : List (Condition × List GuideStep × String))
      (description : String)
  | loop (id : String) (condition : Condition) (steps : List GuideStep)
      (maxIterations : Option ℚ) (description : String)

/-- The step's `type` discriminant string. -/
def GuideStep.typeName : GuideStep → String
  | .linear .. => "linear"
  | .conditional .. => "conditional"
  | .branch .. => "branch"
  | .loop .. => "loop"

/-- guideSystem `GuideStepResult`. -/
structure GuideStepResult where
  success : Bool
  item : Item
  message : String
  nextStepIndex : Option Nat
  branchPath : Option String
  shouldLoop : Option Bool

/-- guideSystem `GuideExecutionOptions`. -/
structure GuideExecutionOptions where
  maxSteps : Option ℚ
  maxLoopIterations : Option ℚ
  debugMode : Bool

/-- The wiring a `GuideExecutor` holds: the registry's action table and
custom handler table, plus the injected entropy streams. -/
structure ExecEnv where
  actions : List (String × CraftAction)
  handlers : String → Option (Item → CraftAction → Item)
  rand : Nat → ℚ
  uuid : Nat → String

/-- A plain failure `GuideStepResult`. -/
def mkFailResult (item : Item) (message : String) : GuideStepResult :=
  { success := false, item := item, message := message,
    nextStepIndex := none, branchPath := none, shouldLoop := none }

/-- A plain success `GuideStepResult`. -/
def mkSuccessResult (item : Item) (message : String) : GuideStepResult :=
  { success := true, item := item, message := message,
    nextStepIndex := none, branchPath := none, shouldLoop := none }

/-- The TypeError message for reading `.description` of an absent outcome. -/
def outcomeDescTypeError : String :=
  "Cannot read properties of undefined (reading \x27description\x27)"

/-- `GuideExecutor.executeLinearStep`: the whole body sits in a `try`, so
every engine-level throw is caught and converted into a failure result
carrying the error's message and the ORIGINAL item.  The step-history push
(`logStepExecution`) is an append-only log the engine never reads back and
is not part of the modelled state. -/
def executeLinearStep (env : ExecEnv) (k : Nat) (actionId : String) (item : Item) :
    GuideStepResult × Nat :=
  match registryCanExecuteAction env.actions actionId item with
  | .error e => (mkFailResult item ("Error executing step: " ++ e.message), k)
  | .ok false =>
      (mkFailResult item ("Cannot execute action: preconditions not met for " ++ actionId), k)
  | .ok true =>
      match registryExecuteAction env.actions env.handlers env.rand env.uuid k actionId item with
      | .error e => (mkFailResult item ("Error executing step: " ++ e.message), k)
      | .ok ((item2, outcome), k2) =>
          match outcome with
          | some oc =>
              (mkSuccessResult item2
                ("Successfully executed " ++ actionId ++ ": " ++ oc.description), k2)
          | none =>
              (mkFailResult item ("Error executing step: " ++ outcomeDescTypeError), k2)

/-- The single exit point of `executeLoopStep`: re-evaluate the condition,
report the iteration count (noting a hit cap), and set
`shouldLoop = conditionStillMet && iterations >= maxIterations`. -/
def loopExitResult (condition : Condition) (maxIterations : ℚ) (iterations : Nat) (k : Nat)
    (item : Item) : Except EvalError (GuideStepResult × Nat) := do
  let conditionStillMet ← evaluate condition item
  let r : GuideStepResult :=
    { success := true, item := item,
      message := "Loop completed after " ++ toString iterations ++ " iterations" ++
        (if conditionStillMet then " (max iterations reached)" else ""),
      nextStepIndex := none, branchPath := none,
      shouldLoop := some (conditionStillMet && decide (maxIterations ≤ (iterations : ℚ))) }
  .ok (r, k)

/-- The `while (evaluate(condition) && iterations < maxIterations)` loop of
`executeLoopStep`, with `body` the sequential execution of the loop's
steps.  The numeric guard is carried as `fuel`: at each entry
`fuel = ⌈maxIterations⌉.toNat - iterations`, and for a natural `iterations`,
`(iterations : ℚ) < maxIterations ↔ 0 < fuel`, so the recursion is the
source's loop verbatim.  At the cap the guard still evaluates the condition
(left operand of `&&`), as does the single exit point afterwards; a failed
sub-step aborts with the failure annotated with the 1-based iteration. -/
def loopDriver (condition : Condition) (maxIterations : ℚ)
    (body : Nat → Item →
      Except EvalError ((GuideStepResult ⊕ (Item × Option GuideStepResult)) × Nat)) :
    Nat → Nat → Nat → Item → Except EvalError (GuideStepResult × Nat)
  | 0, iterations, k, item => do
      let _ ← evaluate condition item
      loopExitResult condition maxIterations iterations k item
  | fuel + 1, iterations, k, item => do
      let b ← evaluate condition item
      if b then do
        let (stepOut, k2) ← body k item
        match stepOut with
        | .inl r =>
            let r2 := { r with message :=
              "Loop iteration " ++ toString (iterations + 1) ++ " failed: " ++ r.message }
            .ok (r2, k2)
        | .inr (item2, _) => loopDriver condition maxIterations body fuel (iterations + 1) k2 item2
      else loopExitResult condition maxIterations iterations k item

mutual
/-- `GuideExecutor.executeStep`: dispatch on the step variant.  The loop
variant resolves `maxIterations || options.maxLoopIterations || 10` and
drives the while-loop over the sequential execution of its steps. -/
def executeStep (env : ExecEnv) (opts : GuideExecutionOptions) :
    GuideStep → Nat → Item → Except EvalError (GuideStepResult × Nat)
  | .linear _ actionId _ _, k, item => .ok (executeLinearStep env k actionId item)
  | .conditional _ condition trueStep falseStep _, k, item => do
      let conditionMet ← evaluate condition item
      if conditionMet then do
        let (r, k2) ← executeStep env opts trueStep k item
        let r2 := { r with message := "Condition met: " ++ r.message,
                           branchPath := some "true" }
        .ok (r2, k2)
      else do
        let (r, k2) ← executeStep env opts falseStep k item
        let r2 := { r with message := "Condition not met: " ++ r.message,
                           branchPath := some "false" }
        .ok (r2, k2)
  | .branch _ branches _, k, item => runBranches env opts branches k item
  | .loop _ condition steps maxIterations _, k, item =>
      let maxq := jsOrNumOpt maxIterations (jsOrNumOpt opts.maxLoopIterations 10)
      loopDriver condition maxq (fun k2 it => runSeq env opts steps k2 it)
        (Int.ceil maxq).toNat 0 k item
/-- Sequential execution of a step list sharing one running item
(the common body of branch arms and loop iterations): `inl` is the first
failing sub-step's result (short-circuit), `inr` carries the final item and
the last successful result. -/
def runSeq (env : ExecEnv) (opts : GuideExecutionOptions) :
    List GuideStep → Nat → Item →
      Except EvalError ((GuideStepResult ⊕ (Item × Option GuideStepResult)) × Nat)
  | [], k, item => .ok (.inr (item, none), k)
  | s :: rest, k, item => do
      let (r, k2) ← executeStep env opts s k item
      if r.success then do
        let (restOut, k3) ← runSeq env opts rest k2 r.item
        match restOut with
        | .inl rr => .ok (.inl rr, k3)
        | .inr (item2, lastR) => .ok (.inr (item2, lastR <|> some r), k3)
      else .ok (.inl r, k2)
/-- `GuideExecutor.executeBranchStep`: first branch whose condition holds
runs its steps sequentially; a sub-step failure is returned with the
branch's label; no matching branch is a failure result. -/
def runBranches (env : ExecEnv) (opts : GuideExecutionOptions) :
    List (Condition × List GuideStep × String) → Nat → Item →
      Except EvalError (GuideStepResult × Nat)
  | [], k, item => .ok (mkFailResult item "No matching branch found", k)
  | (condition, bsteps, label) :: rest, k, item => do
      let b ← evaluate condition item
      if b then do
        let (seqOut, k2) ← runSeq env opts bsteps k item
        match seqOut with
        | .inl r => .ok ({ r with branchPath := some label }, k2)
        | .inr (item2, lastR) =>
            let lastMsg := match lastR with
              | some r => if r.message = "" then "completed" else r.message
              | none => "completed"
            let r2 : GuideStepResult :=
              { success := true, item := item2,
                message := "Executed branch \x27" ++ label ++ "\x27: " ++ lastMsg,
                nextStepIndex := none, branchPath := some label, shouldLoop := none }
            .ok (r2, k2)
      else runBranches env opts rest k item
end

/-- A stored crafting guide (types/core `CraftGuide`).  Timestamps are
abstract instants (`Nat`); the loosely-typed template/metadata fields are
dynamic values.  Fields beyond those the engine reads follow spec §3 (the
types module itself is not among the sources). -/
structure CraftGuide where
  id : String
  title : String
  description : String
  author : String
  version : String
  createdAt : Nat
  updatedAt : Nat
  startingItem : JSVal
  targetItem : JSVal
  steps : List GuideStep
  estimatedCost : JSVal
  successRate : JSVal
  isPublic : Bool
  shareId : Option String

/-- `this.guides[id]` on the manager's in-memory guide record. -/
def getGuideStore (guides : List (String × CraftGuide)) (guideId : String) : Option CraftGuide :=
  (guides.find? (fun kv => kv.1 = guideId)).map (fun kv => kv.2)

/-- `this.guides[g.id] = g`: replace if present, else append. -/
def storeGuide (guides : List (String × CraftGuide)) (g : CraftGuide) :
    List (String × CraftGuide) :=
  if guides.any (fun kv => kv.1 = g.id) then
    guides.map (fun kv => if kv.1 = g.id then (g.id, g) else kv)
  else guides ++ [(g.id, g)]

/-- guideSystem `GuideExecutionState`.  `stepHistory` (append-only, never
read back by the engine) and the `variables` scratch mapping are not part
of the modelled state. -/
structure GuideExecutionState where
  guideId : String
  currentItem : Item
  currentStepIndex : Nat

/-- `GuideManager.createExecutionState`: clone the starting item (one fresh
uuid), zero the cursor. -/
def createExecutionState (freshId : String) (guideId : String) (startingItem : Item) :
    GuideExecutionState :=
  { guideId := guideId, currentItem := cloneItem freshId startingItem, currentStepIndex := 0 }

/-- `GuideManager.executeNextStep`: missing guide and exhausted cursor are
reported as results, not errors; the cursor advances only on success, and
holds when the result flags `shouldLoop` (no step ever sets
`nextStepIndex`, but the branch is modelled).  The in-range index access
`guide.steps[currentStepIndex]` is rendered with an unreachable default. -/
def executeNextStep (env : ExecEnv) (guides : List (String × CraftGuide)) (k : Nat)
    (st : GuideExecutionState) (opts : GuideExecutionOptions) :
    Except EvalError (GuideStepResult × GuideExecutionState × Nat) :=
  match getGuideStore guides st.guideId with
  | none => .ok (mkFailResult st.currentItem "Guide not found", st, k)
  | some guide =>
    if guide.steps.length ≤ st.currentStepIndex then
      .ok (mkSuccessResult st.currentItem "Guide completed", st, k)
    else
      let step := (guide.steps.get? st.currentStepIndex).getD (GuideStep.linear "" "" "" none)
      match executeStep env opts step k st.currentItem with
      | .error e => .error e
      | .ok (result, k2) =>
          let st2 :=
            if result.success then
              { st with currentItem := result.item,
                        currentStepIndex :=
                          match result.nextStepIndex with
                          | some n => n
                          | none =>
                              if result.shouldLoop = some true then st.currentStepIndex
                              else st.currentStepIndex + 1 }
            else st
          .ok (result, st2, k2)

/-- Errors escaping `GuideManager.executeGuide`: its own guide-not-found
throw, or an uncaught condition-evaluation error from a non-linear step. -/
inductive GuideError where
  | guideNotFound (id : String)
  | evalErr (e : EvalError)

/-- The `while (currentStepIndex < steps.length && stepCount < maxSteps)`
loop of `executeGuide`.  As in `loopDriver`, the numeric budget is carried
as `fuel = ⌈maxSteps⌉.toNat - stepCount`, which renders the
`stepCount < maxSteps` conjunct exactly. -/
def execGuideGo (env : ExecEnv) (opts : GuideExecutionOptions)
    (guides : List (String × CraftGuide)) (guide : CraftGuide) :
    Nat → Nat → GuideExecutionState → List GuideStepResult →
      Except GuideError (Bool × GuideExecutionState × List GuideStepResult)
  | 0, _, st, results => .ok (decide (guide.steps.length ≤ st.currentStepIndex), st, results)
  | fuel + 1, k, st, results =>
      if guide.steps.length ≤ st.currentStepIndex then .ok (true, st, results)
      else
        match executeNextStep env guides k st opts with
        | .error e => .error (.evalErr e)
        | .ok (result, st2, k2) =>
            if result.success then
              execGuideGo env opts guides guide fuel k2 st2 (results ++ [result])
            else .ok (false, st2, results ++ [result])

/-- `GuideManager.executeGuide`: look up the guide (throwing when absent),
build a fresh execution state, and run `executeNextStep` under the step
budget `options.maxSteps || 100`; overall success is the cursor having
reached the end. -/
def executeGuide (env : ExecEnv) (guides : List (String × CraftGuide)) (k : Nat)
    (guideId : String) (startingItem : Item) (opts : GuideExecutionOptions) :
    Except GuideError (Bool × GuideExecutionState × List GuideStepResult) :=
  match getGuideStore guides guideId with
  | none => .error (.guideNotFound guideId)
  | some guide =>
      let st := createExecutionState (env.uuid k) guideId startingItem
      let maxSteps := jsOrNumOpt opts.maxSteps 100
      execGuideGo env opts guides guide (Int.ceil maxSteps).toNat (k + 1) st []

/-- `GuideManager.validateStep`: per-variant structural checks.  In this
closed representation a conditional always carries its condition and both
sub-steps and a loop its condition, so only the checks that remain
expressible can fire. -/
def validateStep (step : GuideStep) (index : Nat) : List String :=
  let pre := "Step " ++ toString (index + 1) ++ " (" ++ step.typeName ++ ")"
  match step with
  | .linear _ actionId _ _ => if actionId = "" then [pre ++ ": Missing action ID"] else []
  | .conditional .. => []
  | .branch _ branches _ => if branches.isEmpty then [pre ++ ": No branches defined"] else []
  | .loop _ _ steps _ _ => if steps.isEmpty then [pre ++ ": No steps defined in loop"] else []

/-- `GuideManager.hasCircularReferences`: declared but unimplemented in the
source — it always reports that no cycles were found. -/
def hasCircularReferences (_steps : List GuideStep) : Bool :=
  false

/-- `GuideManager.validateGuide`: collect every per-step error, then the
(never-firing) circular-reference check. -/
def validateGuide (g : CraftGuide) : ValidationResult :=
  let stepErrors := (g.steps.enum.map (fun p => validateStep p.2 p.1)).flatten
  let circErrors :=
    if hasCircularReferences g.steps then
      ["Guide contains circular references in conditional steps"]
    else []
  let errors := stepErrors ++ circErrors
  { isValid := errors.isEmpty, errors := errors }

/-- `GuideManager.exportGuide`: `JSON.stringify` of the stored guide,
throwing when the id is unknown.  As with items, the serialized text is
identified with the value it denotes (import re-assigns the fields JSON
would distort, namely the `Date` timestamps). -/
def exportGuide (guides : List (String × CraftGuide)) (guideId : String) :
    Except String CraftGuide :=
  match getGuideStore guides guideId with
  | none => .error ("Guide not found: " ++ guideId)
  | some g => .ok g

/-- `GuideManager.importGuide`: parse (see `exportGuide`), validate —
throwing the aggregated error list when invalid — then store under a fresh
id with fresh timestamps. -/
def importGuide (freshId : String) (now : Nat) (guides : List (String × CraftGuide))
    (guideData : CraftGuide) : Except String (CraftGuide × List (String × CraftGuide)) :=
  let validation := validateGuide guideData
  if !validation.isValid then
    .error ("Invalid guide: " ++ String.intercalate ", " validation.errors)
  else
    let g := { guideData with id := freshId, createdAt := now, updatedAt := now }
    .ok (g, storeGuide guides g)

/-- Running total of the first `n` outcome weights. -/
def cumulProb (outcomes : List ActionOutcome) (n : Nat) : ℚ :=
  ((outcomes.take n).map (fun o => o.probability)).sum

/-- Modelled from the spec (§4.3 step 3): with a non-positive weight sum,
deterministically the first outcome; otherwise the outcome at the FIRST
index whose running weight total reaches or exceeds the scaled draw (ties
favor earlier outcomes), falling back to the last outcome when the walk
falls through. -/
def specSelectOutcome (first : ActionOutcome) (rest : List ActionOutcome) (scaled : ℚ) :
    ActionOutcome :=
  let outcomes := first :: rest
  if (outcomes.map (fun o => o.probability)).sum ≤ 0 then first
  else
    match (List.range outcomes.length).find? (fun i => decide (scaled ≤ cumulProb outcomes (i + 1))) with
    | some i => outcomes.getD i first
    | none => outcomes.getLast (List.cons_ne_nil first rest)

/-! Concrete fixtures used by the claim checks. -/

/-- A plain uncorrupted normal item with one point of quality. -/
def itemA : Item :=
  { id := "item-1", name := "Test Ring", baseType := "Ring", itemLevel := 1, quality := 1,
    isCorrupted := false, isIdentified := true, rarity := "normal",
    properties := [], modifiers := [], sockets := [], customData := .obj [], tags := [] }

/-- A concrete uuid stream. -/
def uuidStream : Nat → String := fun n => "uuid-" ++ toString n

/-- A concrete (constant) random stream. -/
def randZero : Nat → ℚ := fun _ => 0

/-- An empty custom-handler table. -/
def noHandlers : String → Option (Item → CraftAction → Item) := fun _ => none

/-- An addModifier change that carries a target and tier but no
`modifierId`. -/
def changeNoId : ItemChange :=
  { type := "addModifier", target := some "Fiery", value := .obj [("tier", .num 3)],
    modifierId := none, socketId := none, customHandler := none }

/-- The same addModifier change with a `modifierId`. -/
def changeWithId : ItemChange :=
  { type := "addModifier", target := some "Fiery", value := .obj [("tier", .num 3)],
    modifierId := some "m-1", socketId := none, customHandler := none }

/-! Claim checks. -/

/-- C1 counterexample: on an item whose resolved `quality` is the number 1
and a condition whose value is the string "1" — `==`-equal in JavaScript
but not identical — `equals` evaluates FALSE, because the source compares
with `===`, not the type-coercing `==` the claim asserts. -/
theorem c1_equals_coercion_counterexample :
    getTargetValue "quality" itemA = .num 1 ∧
    evaluate (.mk "c1" "property" "equals" (some "quality") (.str "1") [] none) itemA =
      .ok false :=
  ⟨rfl, rfl⟩

/-- C1 (amended): for every equals condition with a target, `evaluate`
resolves the target path and compares the resolved value against the
condition's value with strict `===` equality (no type coercion), and
notEquals returns the negation. -/
theorem c1_equals_strict (item : Item) (ident ty t : String) (v : JSVal)
    (cs : List Condition) (ce : Option String) :
    evaluate (.mk ident ty "equals" (some t) v cs ce) item =
      .ok (strictEq (getTargetValue t item) v) ∧
    evaluate (.mk ident ty "notEquals" (some t) v cs ce) item =
      .ok (!strictEq (getTargetValue t item) v) := by
  constructor <;> cases cs <;> cases ce <;> simp [evaluate, evaluateEquals, Except.bind] <;> rfl

/-- C2 counterexample: importing an exported item preserves its id — the
source `importItem` validates and returns the parsed item without
reassigning ids, so `importItem(exportItem(i))` keeps `i`'s id, contrary to
the claimed reassignment on import. -/
theorem c2_import_id_counterexample :
    importItem (exportItem itemA) = .ok itemA ∧ itemA.id = "item-1" :=
  ⟨rfl, rfl⟩

/-- C2 (amended): every item mutator returns an item with the same id as
its input, and `cloneItem` assigns the supplied fresh id (hence a differing
id whenever the fresh id differs); `importItem(exportItem(i))`, however,
returns the item unchanged — id included — whenever it validates. -/
theorem c2_id_stability (item : Item) (pid fid name mid sid ptype : String)
    (v : JSVal) (m : ItemModifier) (s : ItemSocket) (ids : List String) :
    (addProperty pid item name v ptype).id = item.id ∧
    (updateProperty item name v).id = item.id ∧
    (removeProperty item name).id = item.id ∧
    (addModifier item m).id = item.id ∧
    (removeModifier item mid).id = item.id ∧
    (addSocket item s).id = item.id ∧
    (removeSocket item sid).id = item.id ∧
    (linkSockets item ids).id = item.id ∧
    (corruptItem item).id = item.id ∧
    (cloneItem fid item).id = fid ∧
    (fid ≠ item.id → (cloneItem fid item).id ≠ item.id) ∧
    ((validateItem item).isValid = true → importItem (exportItem item) = .ok item) := by
  refine ⟨rfl, rfl, rfl, rfl, rfl, rfl, rfl, rfl, rfl, rfl, ?_, ?_⟩
  · intro h
    simpa [cloneItem] using h
  · intro hv
    simp [importItem, exportItem, hv]

/-- C2 witness: the amended statement at a concrete item: the clone's id
differs and the import round-trip returns the very same item. -/
theorem c2_id_stability_witness :
    (cloneItem "fresh-1" itemA).id ≠ itemA.id ∧ importItem (exportItem itemA) = .ok itemA := by
  have h := c2_id_stability itemA "p-1" "fresh-1" "n" "m" "s" "string" .undefined
    (createModifier "m-9" (.str "x") (.num 1) "prefix") (createSocket "s-9" "white") []
  exact ⟨h.2.2.2.2.2.2.2.2.2.2.1 (by decide), h.2.2.2.2.2.2.2.2.2.2.2 (by rfl)⟩

/-- C3 counterexample: for an unregistered action id,
`ActionRegistryManager.canExecuteAction` returns plain `false` — it does
NOT surface an action-not-found failure as the claim asserts (only
`executeAction` does). -/
theorem c3_canexecute_counterexample :
    registryCanExecuteAction [] "missing_action" itemA = .ok false :=
  rfl

/-- C3 (amended): for an action id not present in the registry,
`executeAction` fails with the action-not-found error, while
`canExecuteAction` silently returns `false` without error. -/
theorem c3_unregistered_action (actions : List (String × CraftAction))
    (handlers : String → Option (Item → CraftAction → Item))
    (rand : Nat → ℚ) (uuid : Nat → String) (k : Nat) (actionId : String) (item : Item)
    (h : getAction actions actionId = none) :
    registryExecuteAction actions handlers rand uuid k actionId item =
      .error (.actionNotFound actionId) ∧
    registryCanExecuteAction actions actionId item = .ok false := by
  constructor
  · simp [registryExecuteAction, h]
  · simp [registryCanExecuteAction, h]

/-- C3 witness: the amended statement at the empty registry. -/
theorem c3_unregistered_action_witness :
    registryExecuteAction [] noHandlers randZero uuidStream 0 "missing_action" itemA =
      .error (.actionNotFound "missing_action") :=
  (c3_unregistered_action [] noHandlers randZero uuidStream 0 "missing_action" itemA rfl).1

/-- C4 counterexample: an addModifier change carrying a target and a tier
but no `modifierId` is silently skipped — nothing is appended — whereas
the claim asserts every addModifier change appends a synthesized
modifier. -/
theorem c4_addmodifier_counterexample :
    applyChange uuidStream (itemA, 0) changeNoId = (itemA, 0) ∧
    (applyChange uuidStream (itemA, 0) changeNoId).1.modifiers = [] :=
  ⟨rfl, rfl⟩

/-- C4 (amended): changes are applied in declared order (the fold step),
and an addModifier change WITH a truthy `modifierId` appends a fresh
modifier synthesized from the change's target, with the tier taken from
the change's value (`value.tier || 1`), to the item's modifiers. -/
theorem c4_addmodifier_guarded (uuid : Nat → String) (item : Item) (k : Nat)
    (change : ItemChange) (st : Item × Nat) (cs : List ItemChange) :
    (applyChanges uuid st (change :: cs) = applyChanges uuid (applyChange uuid st change) cs) ∧
    (change.type = "addModifier" → optStrTruthy change.modifierId = true →
      applyChange uuid (item, k) change =
        (addModifier item
          (createModifier (uuid k) (jsOfOptStr change.target) (tierOfValue change.value) "prefix"),
         k + 1) ∧
      (applyChange uuid (item, k) change).1.modifiers =
        item.modifiers ++
          [createModifier (uuid k) (jsOfOptStr change.target) (tierOfValue change.value) "prefix"]) := by
  constructor
  · rfl
  · intro h1 h2
    constructor
    · simp [applyChange, h1, h2]
    · simp [applyChange, h1, h2, addModifier]

/-- C4 witness: at a concrete addModifier change with a modifierId, the
synthesized modifier (name from the target, tier 3 from the value) is
appended and one uuid is consumed. -/
theorem c4_addmodifier_guarded_witness :
    applyChange uuidStream (itemA, 0) changeWithId =
      (addModifier itemA (createModifier "uuid-0" (.str "Fiery") (.num 3) "prefix"), 1) := by
  exact ((c4_addmodifier_guarded uuidStream itemA 0 changeWithId (itemA, 0) []).2 rfl rfl).1

/-- Mapping the updateProperty rewrite over a record with no matching key
is the identity. -/
theorem map_updateValue_eq_self (l : List (String × ItemProperty)) (name : String) (v : JSVal)
    (h : ∀ kv ∈ l, kv.1 ≠ name) :
    l.map (fun kv => if kv.1 = name then (kv.1, { kv.2 with value := v }) else kv) = l := by
  induction l with
  | nil => rfl
  | cons kv rest ih =>
      have h1 : kv.1 ≠ name := h kv (by simp)
      simp only [List.map_cons, if_neg h1]
      rw [ih (fun x hx => h x (by simp [hx]))]

/-- C10: for a property name not present among the item's property keys,
`updateProperty` returns the item unchanged (a silent no-op, not an
error); consequently a declarative modifyProperty change whose target
names such a key — e.g. a top-level field like `rarity` — leaves the item
unchanged. -/
theorem c10_updateproperty_noop (item : Item) (name : String) (v : JSVal)
    (uuid : Nat → String) (k : Nat) (h : ∀ kv ∈ item.properties, kv.1 ≠ name) :
    updateProperty item name v = item ∧
    applyChange uuid (item, k)
      { type := "modifyProperty", target := some name, value := v,
        modifierId := none, socketId := none, customHandler := none } = (item, k) := by
  have h1 : updateProperty item name v = item := by
    show { item with properties := _ } = item
    rw [map_updateValue_eq_self item.properties name v h]
  refine ⟨h1, ?_⟩
  by_cases hn : name = ""
  · simp [applyChange, hn]
  · simp [applyChange, hn, h1]

/-- Computation rule: binding a success. -/
theorem exBind_ok {α β ε : Type} (a : α) (f : α → Except ε β) :
    (Except.ok a : Except ε α) >>= f = f a := rfl

/-- Computation rule: binding an error. -/
theorem exBind_error {α β ε : Type} (e : ε) (f : α → Except ε β) :
    (Except.error e : Except ε α) >>= f = Except.error e := rfl

/-- Computation rule: mapError on a success. -/
theorem exMapError_ok {α ε ε2 : Type} (a : α) (g : ε → ε2) :
    (Except.ok a : Except ε α).mapError g = Except.ok a := rfl

/-- Computation rule: mapError on an error. -/
theorem exMapError_error {α ε ε2 : Type} (e : ε) (g : ε → ε2) :
    (Except.error e : Except ε α).mapError g = Except.error (g e) := rfl

/-- Computation rule: throw is the error constructor. -/
theorem exThrow {α ε : Type} (e : ε) : (throw e : Except ε α) = Except.error e := rfl

/-- Characterisation of the short-circuiting `every`: it yields `ok true`
exactly when every condition in the list evaluates to `ok true`. -/
theorem evalEvery_ok_true_iff (cs : List Condition) (item : Item) :
    evalEvery cs item = .ok true ↔ ∀ c ∈ cs, evaluate c item = .ok true := by
  induction cs with
  | nil => simp [evalEvery]
  | cons c rest ih =>
      cases h : evaluate c item with
      | error e =>
          simp only [evalEvery, h, Except.bind]
          constructor
          · intro hfalse
            cases hfalse
          · intro hall
            have := hall c (by simp)
            rw [h] at this
            cases this
      | ok b =>
          cases b with
          | true =>
              simp only [evalEvery, h, Except.bind]
              constructor
              · intro hrest c2 hc2
                rcases List.mem_cons.mp hc2 with h2 | h2
                · rw [h2, h]
                · exact (ih.mp hrest) c2 h2
              · intro hall
                exact ih.mpr (fun c2 hc2 => hall c2 (List.mem_cons_of_mem c hc2))
          | false =>
              simp only [evalEvery, h, Except.bind]
              constructor
              · intro hfalse
                cases hfalse
              · intro hall
                have := hall c (by simp)
                rw [h] at this
                cases this

/-- C6: the action-level precondition gate — `canExecuteAction` is true iff
every precondition evaluates true (vacuously so for none; a single false
one forbids truth), and `executeAction` raises the precondition-not-met
error exactly when `canExecuteAction` is false. -/
theorem c6_precondition_gate (action : CraftAction) (item : Item) :
    (canExecuteAction action item = .ok true ↔
      ∀ c ∈ action.preconditions, evaluate c item = .ok true) ∧
    (action.preconditions = [] → canExecuteAction action item = .ok true) ∧
    (∀ c ∈ action.preconditions, evaluate c item = .ok false →
      canExecuteAction action item ≠ .ok true) ∧
    (∀ (handlers : String → Option (Item → CraftAction → Item)) (rand : Nat → ℚ)
       (uuid : Nat → String) (k : Nat),
      executeAction handlers rand uuid k action item =
          .error (.preconditionsNotMet action.name) ↔
        canExecuteAction action item = .ok false) := by
  have hmain := evalEvery_ok_true_iff action.preconditions item
  refine ⟨hmain, ?_, ?_, ?_⟩
  · intro h
    simp [canExecuteAction, h, evalEvery]
  · intro c hc hf htrue
    have := hmain.mp htrue c hc
    rw [hf] at this
    cases this
  · intro handlers rand uuid k
    cases hcan : canExecuteAction action item with
    | error e =>
        simp [executeAction, hcan, exMapError_error, exBind_error]
    | ok b =>
        cases b with
        | false =>
            simp only [executeAction, hcan, exMapError_ok, exBind_ok]
            simp [exThrow]
        | true =>
            cases hres : resolveHandler handlers action with
            | some h =>
                simp [executeAction, hcan, exMapError_ok, exBind_ok, hres]
            | none =>
                cases hfil : filterValidOutcomes action.outcomes item with
                | error e =>
                    simp [executeAction, hcan, exMapError_ok, exBind_ok, hres, hfil,
                          exMapError_error, exBind_error]
                | ok vo =>
                    cases vo with
                    | nil =>
                        simp [executeAction, hcan, exMapError_ok, exBind_ok, hres, hfil,
                              exThrow]
                    | cons v vs =>
                        simp [executeAction, hcan, exMapError_ok, exBind_ok, hres, hfil]

/-- C6 witness: on a concrete action with no preconditions the gate is
vacuously open, and `executeAction` does not raise the
precondition-not-met error. -/
theorem c6_precondition_gate_witness :
    canExecuteAction
        { id := "a1", name := "A", description := "", category := "c", preconditions := [],
          requirements := .obj [], outcomes := [], customHandler := none, tags := [],
          isEnabled := true } itemA = .ok true :=
  (c6_precondition_gate
    { id := "a1", name := "A", description := "", category := "c", preconditions := [],
      requirements := .obj [], outcomes := [], customHandler := none, tags := [],
      isEnabled := true } itemA).2.1 rfl

/-- The running weight total over a cons, one step in. -/
theorem cumulProb_cons_succ (o : ActionOutcome) (rest : List ActionOutcome) (n : Nat) :
    cumulProb (o :: rest) (n + 1) = o.probability + cumulProb rest n := by
  simp [cumulProb, List.take_succ_cons]

/-- The source's accumulate-and-compare walk returns exactly the outcome at
the first index whose running weight total reaches or exceeds the draw
(`none` when no index does). -/
theorem selectWalk_eq_find (random : ℚ) (os : List ActionOutcome) : ∀ acc : ℚ,
    selectWalk random os acc =
      ((List.range os.length).find? (fun i => decide (random ≤ acc + cumulProb os (i + 1)))).bind
        (fun i => os.get? i) := by
  induction os with
  | nil => intro acc; simp [selectWalk]
  | cons o rest ih =>
      intro acc
      rw [List.length_cons, List.range_succ_eq_map]
      by_cases hp : random ≤ acc + o.probability
      · have hp0 : decide (random ≤ acc + cumulProb (o :: rest) (0 + 1)) = true := by
          simp [cumulProb, hp]
        rw [@List.find?_cons_of_pos Nat
          (fun i => decide (random ≤ acc + cumulProb (o :: rest) (i + 1))) 0
          (List.map Nat.succ (List.range rest.length)) hp0]
        simp [selectWalk, hp]
      · have hp0 : ¬ (decide (random ≤ acc + cumulProb (o :: rest) (0 + 1)) = true) := by
          simp [cumulProb, hp]
        rw [@List.find?_cons_of_neg Nat
          (fun i => decide (random ≤ acc + cumulProb (o :: rest) (i + 1))) 0
          (List.map Nat.succ (List.range rest.length)) hp0]
        rw [List.find?_map, Option.bind_map]
        have hpred : ((fun i => decide (random ≤ acc + cumulProb (o :: rest) (i + 1))) ∘ Nat.succ)
            = (fun i => decide (random ≤ (acc + o.probability) + cumulProb rest (i + 1))) := by
          funext i
          simp only [Function.comp_apply, Nat.succ_eq_add_one, cumulProb_cons_succ, add_assoc]
        have hget : ((fun i => (o :: rest).get? i) ∘ Nat.succ) = (fun i => rest.get? i) := by
          funext i
          simp [Nat.succ_eq_add_one, List.get?_cons_succ]
        rw [hpred, hget, ← ih (acc + o.probability)]
        simp [selectWalk, hp]

/-- Refinement: with a positive weight total, the source's selection equals
the spec's description — the first outcome whose running weight total
reaches the scaled draw, ties to earlier outcomes, else the last. -/
theorem selectOutcome_eq_spec (first : ActionOutcome) (rest : List ActionOutcome) (r : ℚ)
    (hpos : 0 < ((first :: rest).map (fun o => o.probability)).sum) :
    selectOutcomeByProbability first rest r =
      specSelectOutcome first rest (r * ((first :: rest).map (fun o => o.probability)).sum) := by
  have hns : ¬ (((first :: rest).map (fun o => o.probability)).sum ≤ 0) := not_le.mpr hpos
  unfold selectOutcomeByProbability specSelectOutcome
  simp only [if_neg hns]
  rw [selectWalk_eq_find]
  have h0 : (fun i => decide (r * ((first :: rest).map (fun o => o.probability)).sum ≤
        0 + cumulProb (first :: rest) (i + 1)))
      = (fun i => decide (r * ((first :: rest).map (fun o => o.probability)).sum ≤
        cumulProb (first :: rest) (i + 1))) := by
    funext i
    rw [zero_add]
  rw [h0]
  cases hfind : (List.range (first :: rest).length).find?
      (fun i => decide (r * ((first :: rest).map (fun o => o.probability)).sum ≤
        cumulProb (first :: rest) (i + 1))) with
  | none => simp
  | some i =>
      have hi : i < (first :: rest).length :=
        List.mem_range.mp (List.mem_of_find?_eq_some hfind)
      have hget : (first :: rest).get? i = some ((first :: rest).get ⟨i, hi⟩) :=
        List.get?_eq_get hi
      simp [hget, List.getD_eq_getElem?_getD, List.getElem?_eq_getElem hi, List.get_eq_getElem]

/-- The first declared outcome of the two-outcome 0.2/0.8 fixture. -/
def oA : ActionOutcome :=
  { id := "oA", probability := 1/5, description := "first", changes := [], conditions := [] }

/-- The second declared outcome of the two-outcome 0.2/0.8 fixture. -/
def oB : ActionOutcome :=
  { id := "oB", probability := 4/5, description := "second", changes := [], conditions := [] }

/-- C5: the declarative outcome path — with preconditions passing and no
registered custom handler, `executeAction` fails with no-valid-outcome iff
the condition-filtered outcome set is empty, and otherwise applies the
outcome selected from the filtered set by the weighted draw; selection
picks the first outcome deterministically on a non-positive weight sum and
otherwise the first outcome whose cumulative weight reaches or exceeds the
scaled draw (ties to earlier, last as fallback); with weights [0.2, 0.8] a
scaled draw of 0.1 selects the first outcome and 0.9 the second. -/
theorem c5_outcome_selection :
    (∀ (handlers : String → Option (Item → CraftAction → Item)) (rand : Nat → ℚ)
       (uuid : Nat → String) (k : Nat) (action : CraftAction) (item : Item),
      canExecuteAction action item = .ok true →
      resolveHandler handlers action = none →
      ((filterValidOutcomes action.outcomes item = .ok [] ↔
          executeAction handlers rand uuid k action item =
            .error (.noValidOutcomes action.name)) ∧
       (∀ v vs, filterValidOutcomes action.outcomes item = .ok (v :: vs) →
          ∀ sel applied, sel = selectOutcomeByProbability v vs (rand k) →
            applied = applyChanges uuid
              (item, if ((v :: vs).map (fun o => o.probability)).sum ≤ 0 then k else k + 1)
              sel.changes →
            executeAction handlers rand uuid k action item =
              .ok ((applied.1, some sel), applied.2)))) ∧
    (∀ (v : ActionOutcome) (vs : List ActionOutcome) (r : ℚ),
      ((v :: vs).map (fun o => o.probability)).sum ≤ 0 →
      selectOutcomeByProbability v vs r = v) ∧
    (∀ (v : ActionOutcome) (vs : List ActionOutcome) (r : ℚ),
      0 < ((v :: vs).map (fun o => o.probability)).sum →
      selectOutcomeByProbability v vs r =
        specSelectOutcome v vs (r * ((v :: vs).map (fun o => o.probability)).sum)) ∧
    selectOutcomeByProbability oA [oB] (1/10) = oA ∧
    selectOutcomeByProbability oA [oB] (9/10) = oB := by
  refine ⟨?_, ?_, ?_, rfl, rfl⟩
  · intro handlers rand uuid k action item hcan hres
    constructor
    · cases hfil : filterValidOutcomes action.outcomes item with
      | error e =>
          simp [executeAction, hcan, hres, hfil, exMapError_ok, exMapError_error,
                exBind_ok, exBind_error]
      | ok vo =>
          cases vo with
          | nil =>
              simp [executeAction, hcan, hres, hfil, exMapError_ok, exBind_ok, exThrow]
          | cons v vs =>
              simp [executeAction, hcan, hres, hfil, exMapError_ok, exBind_ok]
    · intro v vs hfil sel applied hsel happ
      subst hsel
      subst happ
      simp [executeAction, hcan, hres, hfil, exMapError_ok, exBind_ok]
  · intro v vs r h
    simp [selectOutcomeByProbability, h]
    intro hc
    exact absurd h (not_le.mpr hc)
  · intro v vs r h
    exact selectOutcome_eq_spec v vs r h

/-- An action used to exercise the declarative path: no preconditions, no
custom handler, the two-outcome 0.2/0.8 fixture. -/
def actDecl : CraftAction :=
  { id := "decl", name := "Declarative", description := "", category := "c",
    preconditions := [], requirements := .obj [], outcomes := [oA, oB],
    customHandler := none, tags := [], isEnabled := true }

/-- A random stream that always draws 0.1. -/
def randTenth : Nat → ℚ := fun _ => 1/10

/-- C5 witness: on the concrete declarative action with weights [0.2, 0.8]
and draw 0.1, execution returns the item unchanged (the outcome declares no
changes), reports the FIRST outcome, and consumes the one draw. -/
theorem c5_outcome_selection_witness :
    executeAction noHandlers randTenth uuidStream 0 actDecl itemA = .ok ((itemA, some oA), 1) := by
  have h := ((c5_outcome_selection.1 noHandlers randTenth uuidStream 0 actDecl itemA
    (by rfl) (by rfl)).2 oA [oB] (by rfl) _ _ rfl rfl)
  exact h

/-- An item with zero quality, the loop-scenario start. -/
def itemQ0 : Item :=
  { id := "item-q0", name := "Blank", baseType := "Ring", itemLevel := 1, quality := 0,
    isCorrupted := false, isIdentified := true, rarity := "normal",
    properties := [], modifiers := [], sockets := [], customData := .obj [], tags := [] }

/-- The reported outcome of the quality-increment action. -/
def incOutcome : ActionOutcome :=
  { id := "o-inc", probability := 1, description := "Quality increased",
    changes := [], conditions := [] }

/-- An action whose registered custom handler increments the item's
quality by one (the "step that increments quality" of the spec scenario,
realised through the executor's custom-handler extension point). -/
def incAction : CraftAction :=
  { id := "inc_quality", name := "Increase Quality", description := "", category := "custom",
    preconditions := [], requirements := .obj [], outcomes := [incOutcome],
    customHandler := some "inc", tags := [], isEnabled := true }

/-- The wiring for the loop scenario: the increment action registered under
its id, its handler registered under "inc". -/
def envInc : ExecEnv :=
  { actions := [("inc_quality", incAction)],
    handlers := fun h =>
      if h = "inc" then some (fun it _ => { it with quality := it.quality + 1 }) else none,
    rand := randZero, uuid := uuidStream }

/-- Default (empty) execution options. -/
def optsDefault : GuideExecutionOptions :=
  { maxSteps := none, maxLoopIterations := none, debugMode := false }

/-- The loop condition `item.quality < 3`. -/
def qualityBelow3 : Condition :=
  .mk "c-q" "item" "lessThan" (some "quality") (.num 3) [] none

/-- The loop step of the scenario with `maxIterations: 5`. -/
def loopInc5 : GuideStep :=
  .loop "L1" qualityBelow3 [.linear "s1" "inc_quality" "increment" none] (some 5) "loop to 3"

/-- The loop step of the scenario with `maxIterations: 2`. -/
def loopInc2 : GuideStep :=
  .loop "L1" qualityBelow3 [.linear "s1" "inc_quality" "increment" none] (some 2) "loop to 3"

/-- An always-true condition (`and` over no children). -/
def andTrueCond : Condition :=
  .mk "c-true" "composite" "and" none .undefined [] none

/-- C7: the Loop step — with condition `quality < 3` and a body that
increments quality, starting at 0 with `maxIterations 5` it runs exactly 3
iterations ending at quality 3 with `shouldLoop` false, and with
`maxIterations 2` it stops at quality 2 with `shouldLoop` true; a failing
sub-step aborts the loop immediately with the failure annotated with the
1-based iteration number; the iteration cap resolves as the step's own
value, else `options.maxLoopIterations`, else 10. -/
theorem c7_loop_step :
    ((executeStep envInc optsDefault loopInc5 0 itemQ0).map
        (fun p => (p.1.success, p.1.item.quality, p.1.shouldLoop, p.1.message)) =
      .ok (true, 3, some false, "Loop completed after 3 iterations")) ∧
    ((executeStep envInc optsDefault loopInc2 0 itemQ0).map
        (fun p => (p.1.success, p.1.item.quality, p.1.shouldLoop, p.1.message)) =
      .ok (true, 2, some true, "Loop completed after 2 iterations (max iterations reached)")) ∧
    (∀ (condition : Condition) (maxIterations : ℚ)
       (body : Nat → Item →
         Except EvalError ((GuideStepResult ⊕ (Item × Option GuideStepResult)) × Nat))
       (fuel iterations k : Nat) (item : Item) (r : GuideStepResult) (k2 : Nat),
      evaluate condition item = .ok true →
      body k item = .ok (.inl r, k2) →
      loopDriver condition maxIterations body (fuel + 1) iterations k item =
        .ok ({ r with message :=
                 "Loop iteration " ++ toString (iterations + 1) ++ " failed: " ++ r.message },
             k2)) ∧
    (∀ (env : ExecEnv) (opts : GuideExecutionOptions) (id : String) (condition : Condition)
       (steps : List GuideStep) (mi : Option ℚ) (desc : String) (k : Nat) (item : Item),
      executeStep env opts (.loop id condition steps mi desc) k item =
        loopDriver condition (jsOrNumOpt mi (jsOrNumOpt opts.maxLoopIterations 10))
          (fun k2 it => runSeq env opts steps k2 it)
          (Int.ceil (jsOrNumOpt mi (jsOrNumOpt opts.maxLoopIterations 10))).toNat 0 k item) := by
  refine ⟨rfl, rfl, ?_, ?_⟩
  · intro condition maxIterations body fuel iterations k item r k2 hcond hbody
    simp [loopDriver, hcond, hbody, exBind_ok]
  · intro env opts id condition steps mi desc k item
    simp [executeStep]

/-- C7 witness: the abort-on-failure clause at a concrete always-true
condition and a body failing at the third iteration, and the scenario
conjuncts re-evaluated at their concrete inputs through the theorem. -/
theorem c7_loop_step_witness :
    loopDriver andTrueCond 5 (fun (k : Nat) (it : Item) => .ok (.inl (mkFailResult it "boom"), k))
        3 2 7 itemQ0 =
      .ok ({ mkFailResult itemQ0 "boom" with message := "Loop iteration 3 failed: boom" }, 7) := by
  exact c7_loop_step.2.2.1 andTrueCond 5
    (fun (k : Nat) (it : Item) => .ok (.inl (mkFailResult it "boom"), k))
    2 2 7 itemQ0 (mkFailResult itemQ0 "boom") 7 rfl rfl

/-- The state returned by `executeNextStep` always carries the same guide
id as its input state. -/
theorem executeNextStep_guideId (env : ExecEnv) (guides : List (String × CraftGuide)) (k : Nat)
    (st : GuideExecutionState) (opts : GuideExecutionOptions) (r : GuideStepResult)
    (st2 : GuideExecutionState) (k2 : Nat)
    (h : executeNextStep env guides k st opts = .ok (r, st2, k2)) :
    st2.guideId = st.guideId := by
  unfold executeNextStep at h
  cases hg : getGuideStore guides st.guideId with
  | none =>
      rw [hg] at h
      simp at h
      rw [← h.2.1]
  | some guide =>
      rw [hg] at h
      simp only [] at h
      by_cases hlen : guide.steps.length ≤ st.currentStepIndex
      · rw [if_pos hlen] at h
        simp at h
        rw [← h.2.1]
      · rw [if_neg hlen] at h
        cases hex : executeStep env opts
            ((guide.steps.get? st.currentStepIndex).getD (GuideStep.linear "" "" "" none)) k
            st.currentItem with
        | error e =>
            rw [hex] at h
            cases h
        | ok t =>
            rw [hex] at h
            simp at h
            rw [← h.2.1]
            by_cases hs : t.1.success = true
            · simp [hs]
            · simp [hs]

/-- On a non-success result, `executeNextStep` returns its input state
unchanged. -/
theorem executeNextStep_fail_state (env : ExecEnv) (guides : List (String × CraftGuide)) (k : Nat)
    (st : GuideExecutionState) (opts : GuideExecutionOptions) (r : GuideStepResult)
    (st2 : GuideExecutionState) (k2 : Nat)
    (h : executeNextStep env guides k st opts = .ok (r, st2, k2))
    (hf : r.success = false) : st2 = st := by
  unfold executeNextStep at h
  cases hg : getGuideStore guides st.guideId with
  | none =>
      rw [hg] at h
      simp at h
      rw [← h.2.1]
  | some guide =>
      rw [hg] at h
      simp only [] at h
      by_cases hlen : guide.steps.length ≤ st.currentStepIndex
      · rw [if_pos hlen] at h
        simp at h
        rw [← h.2.1]
      · rw [if_neg hlen] at h
        cases hex : executeStep env opts
            ((guide.steps.get? st.currentStepIndex).getD (GuideStep.linear "" "" "" none)) k
            st.currentItem with
        | error e =>
            rw [hex] at h
            cases h
        | ok t =>
            rw [hex] at h
            simp at h
            rw [← h.1] at hf
            rw [← h.2.1]
            simp [hf]

/-- Through any number of budgeted iterations, `execGuideGo` reports
success exactly when the final cursor reached the end of the steps. -/
theorem execGuideGo_success_iff (env : ExecEnv) (opts : GuideExecutionOptions)
    (guides : List (String × CraftGuide)) (guide : CraftGuide) :
    ∀ (fuel k : Nat) (st : GuideExecutionState) (acc : List GuideStepResult)
      (b : Bool) (st2 : GuideExecutionState) (rs : List GuideStepResult),
      getGuideStore guides st.guideId = some guide →
      execGuideGo env opts guides guide fuel k st acc = .ok (b, st2, rs) →
      (b = true ↔ guide.steps.length ≤ st2.currentStepIndex) := by
  intro fuel
  induction fuel with
  | zero =>
      intro k st acc b st2 rs hg h
      simp [execGuideGo] at h
      rw [← h.1, ← h.2.1]
      simp
  | succ n ih =>
      intro k st acc b st2 rs hg h
      rw [execGuideGo] at h
      by_cases hlen : guide.steps.length ≤ st.currentStepIndex
      · rw [if_pos hlen] at h
        simp at h
        rw [← h.1, ← h.2.1]
        simp [hlen]
      · rw [if_neg hlen] at h
        cases hex : executeNextStep env guides k st opts with
        | error e =>
            rw [hex] at h
            cases h
        | ok t =>
            obtain ⟨result, st3, k3⟩ := t
            rw [hex] at h
            simp only [] at h
            by_cases hs : result.success = true
            · rw [if_pos hs] at h
              have hgid : st3.guideId = st.guideId :=
                executeNextStep_guideId env guides k st opts result st3 k3 hex
              exact ih k3 st3 (acc ++ [result]) b st2 rs (by rw [hgid]; exact hg) h
            · rw [if_neg hs] at h
              simp at h
              have hst3 : st3 = st :=
                executeNextStep_fail_state env guides k st opts result st3 k3 hex
                  (by simpa using hs)
              rw [h.1, ← h.2.1, hst3]
              simp [hlen]

/-- The wiring for the budget scenario: nothing registered. -/
def envHold : ExecEnv :=
  { actions := [], handlers := noHandlers, rand := randZero, uuid := uuidStream }

/-- A loop step that is always entered, has no body, caps at one iteration,
and therefore flags `shouldLoop` — holding the cursor forever. -/
def holdLoopStep : GuideStep :=
  .loop "L1" andTrueCond [] (some 1) "hold"

/-- The one-step guide whose cursor never advances. -/
def holdGuide : CraftGuide :=
  { id := "g1", title := "Hold", description := "", author := "a", version := "1",
    createdAt := 0, updatedAt := 0, startingItem := .obj [], targetItem := .obj [],
    steps := [holdLoopStep], estimatedCost := .undefined, successRate := .undefined,
    isPublic := false, shareId := none }

/-- The stored guides of the budget scenario. -/
def guidesHold : List (String × CraftGuide) := [("g1", holdGuide)]

/-- The execution state the budget scenario starts from (and stays in). -/
def stHold : GuideExecutionState :=
  { guideId := "g1", currentItem := cloneItem (uuidStream 0) itemA, currentStepIndex := 0 }

/-- The per-step result every iteration of the budget scenario records. -/
def rHold : GuideStepResult :=
  { success := true, item := cloneItem (uuidStream 0) itemA,
    message := "Loop completed after 1 iterations (max iterations reached)",
    nextStepIndex := none, branchPath := none, shouldLoop := some true }

/-- One iteration of the budget scenario: the holding loop succeeds with
`shouldLoop`, so the state (cursor included) is returned unchanged. -/
theorem holdStep_next (k : Nat) :
    executeNextStep envHold guidesHold k stHold optsDefault = .ok (rHold, stHold, k) := rfl

/-- Any remaining budget is consumed one held iteration at a time,
appending one copy of the loop result per iteration and ending unsuccessful. -/
theorem holdGuide_go (fuel : Nat) : ∀ (k : Nat) (acc : List GuideStepResult),
    execGuideGo envHold optsDefault guidesHold holdGuide fuel k stHold acc =
      .ok (false, stHold, acc ++ List.replicate fuel rHold) := by
  induction fuel with
  | zero =>
      intro k acc
      simp [execGuideGo, holdGuide, stHold]
  | succ n ih =>
      intro k acc
      rw [execGuideGo]
      rw [if_neg (by simp [holdGuide, stHold])]
      rw [holdStep_next k]
      simp only []
      rw [if_pos (show rHold.success = true from rfl)]
      rw [ih k (acc ++ [rHold])]
      simp [List.replicate_succ]

/-- C8: `executeGuide` runs `executeNextStep` from step 0 under the
`options.maxSteps || 100` budget, and overall success holds exactly when
the final cursor reached the end of the guide's steps; on the concrete
guide whose only step always succeeds but holds the cursor, execution
(with default options) returns success false with exactly 100 recorded
per-step results. -/
theorem c8_step_budget :
    ((executeGuide envHold guidesHold 0 "g1" itemA optsDefault).map
        (fun out => (out.1, out.2.2.length)) = .ok (false, 100)) ∧
    (∀ (env : ExecEnv) (guides : List (String × CraftGuide)) (k : Nat) (guideId : String)
       (startingItem : Item) (opts : GuideExecutionOptions) (guide : CraftGuide) (b : Bool)
       (st : GuideExecutionState) (rs : List GuideStepResult),
      getGuideStore guides guideId = some guide →
      executeGuide env guides k guideId startingItem opts = .ok (b, st, rs) →
      (b = true ↔ guide.steps.length ≤ st.currentStepIndex)) := by
  constructor
  · rw [show executeGuide envHold guidesHold 0 "g1" itemA optsDefault =
        execGuideGo envHold optsDefault guidesHold holdGuide 100 1 stHold [] from rfl]
    rw [holdGuide_go 100 1 []]
    simp [Except.map]
  · intro env guides k guideId startingItem opts guide b st rs hg h
    unfold executeGuide at h
    rw [hg] at h
    exact execGuideGo_success_iff env opts guides guide _ _
      (createExecutionState (env.uuid k) guideId startingItem) [] b st rs hg h

/-- C8 witness: the success-iff clause instantiated on the concrete budget
scenario — success is false and the cursor indeed never reached the end. -/
theorem c8_step_budget_witness :
    (false = true ↔ holdGuide.steps.length ≤ stHold.currentStepIndex) := by
  refine c8_step_budget.2 envHold guidesHold 0 "g1" itemA optsDefault holdGuide false stHold
    (List.replicate 100 rHold) rfl ?_
  rw [show executeGuide envHold guidesHold 0 "g1" itemA optsDefault =
      execGuideGo envHold optsDefault guidesHold holdGuide 100 1 stHold [] from rfl]
  rw [holdGuide_go 100 1 []]
  simp

/-- C9: export/import round-trip for guides — exporting a stored guide that
passes validation and importing it back succeeds and yields a guide equal
to the original in every field except `id`, `createdAt` and `updatedAt`,
which are freshly assigned; importing an invalid guide fails with the
aggregated error listing all validation failures. -/
theorem c9_guide_roundtrip (guides guides2 : List (String × CraftGuide)) (gid : String)
    (g : CraftGuide) (freshId : String) (now : Nat)
    (hg : getGuideStore guides gid = some g) :
    ((validateGuide g).isValid = true →
      exportGuide guides gid = .ok g ∧
      (importGuide freshId now guides2 g).map Prod.fst =
        .ok { g with id := freshId, createdAt := now, updatedAt := now }) ∧
    ((validateGuide g).isValid = false →
      importGuide freshId now guides2 g =
        .error ("Invalid guide: " ++ String.intercalate ", " (validateGuide g).errors)) := by
  constructor
  · intro hv
    constructor
    · simp [exportGuide, hg]
    · simp [importGuide, hv, Except.map]
  · intro hv
    simp [importGuide, hv]

/-- A structurally valid stored guide. -/
def validGuide : CraftGuide :=
  { id := "g-valid", title := "Valid", description := "d", author := "a", version := "1",
    createdAt := 11, updatedAt := 12, startingItem := .obj [], targetItem := .obj [],
    steps := [.linear "s1" "chaos_orb" "use a chaos orb" none], estimatedCost := .undefined,
    successRate := .undefined, isPublic := false, shareId := none }

/-- A guide failing validation (linear step with an empty action id). -/
def invalidGuide : CraftGuide :=
  { id := "g-invalid", title := "Invalid", description := "d", author := "a", version := "1",
    createdAt := 11, updatedAt := 12, startingItem := .obj [], targetItem := .obj [],
    steps := [.linear "s1" "" "missing" none], estimatedCost := .undefined,
    successRate := .undefined, isPublic := false, shareId := none }

/-- C9 witness: the round-trip at a concrete valid guide keeps every field
but `id`/`createdAt`/`updatedAt`, and importing a concrete invalid guide
raises the aggregated validation error. -/
theorem c9_guide_roundtrip_witness :
    ((importGuide "g-fresh" 99 [] validGuide).map Prod.fst =
      .ok { validGuide with id := "g-fresh", createdAt := 99, updatedAt := 99 }) ∧
    (importGuide "g-fresh" 99 [] invalidGuide =
      .error "Invalid guide: Step 1 (linear): Missing action ID") := by
  constructor
  · exact ((c9_guide_roundtrip [("g-valid", validGuide)] [] "g-valid" validGuide "g-fresh" 99
      rfl).1 rfl).2
  · exact (c9_guide_roundtrip [("g-invalid", invalidGuide)] [] "g-invalid" invalidGuide
      "g-fresh" 99 rfl).2 rfl

/-- C10 witness: updating the non-key `rarity` on a concrete item is a
no-op, both directly and through a declarative modifyProperty change. -/
theorem c10_updateproperty_noop_witness :
    updateProperty itemA "rarity" (.str "rare") = itemA ∧
    applyChange uuidStream (itemA, 4)
      { type := "modifyProperty", target := some "rarity", value := .str "rare",
        modifierId := none, socketId := none, customHandler := none } = (itemA, 4) := by
  exact c10_updateproperty_noop itemA "rarity" (.str "rare") uuidStream 4
    (by intro kv hkv; simp [itemA] at hkv)

